import Mathlib

/-!
Verification development for the LogAnywhere core: the handler registry
(`HandlerManager`), the per-tag subscriber index (`Tag`), and the dispatcher
(`Logger`).  The repository contains two variants of the registry:

* `src/unnamed/part_003` — the monolithic `HandlerManager` (pruning of tag
  subscriber lists is done by id/name comparison; `clearHandlers` does not
  touch tag subscriber lists);
* `src/unnamed/part_004` — the helper-method `HandlerManager` (pruning is done
  by pointer comparison via `unsubscribeEntryFromTags`; `clearHandlers` prunes
  first and then value-initialises every slot).

These are embedded below as namespaces `HandlerManager3` and `HandlerManager4`
over a single state type.  `registerHandlerForTags` is observably identical in
both files and is embedded once.

Pointers are embedded as indices:

* a `Tag*` is the index of the tag object in the world's tag list (tags are
  created once at static scope, so their identity is stable);
* a `HandlerEntry*` stored in a tag's subscriber array is the *slot index*
  into the manager's `handlers[]` array, because that is what the address
  `&handlers[k]` denotes.  The registry array is kept at its full fixed length
  (`LOGANYWHERE_MAX_HANDLERS`); slots at or beyond `handlerCount` retain their
  previous contents exactly as the C++ array does, so stale subscriber
  pointers read whatever the slot currently holds.

Machine integers: `nextHandlerId` is a `uint16_t`, so it is incremented
modulo 2^16; the `Logger`'s fallback `logSequence` is a `uint64_t`, so it is
incremented modulo 2^64.  Callback function pointers and `void*` contexts are
opaque tokens, embedded as natural numbers (0 plays the role of `nullptr`).
-/

namespace LogAnywhere

/-- LogLevel.h: ordered severity enumeration, `TRACE = 0` up to `ERROR = 4`,
represented in C++ as `uint8_t`. -/
inductive LogLevel where
  | TRACE
  | DEBUG
  | INFO
  | WARN
  | ERROR
deriving DecidableEq, Repr

/-- Numeric value of a level, as produced by `static_cast<uint8_t>(level)`. -/
def levelNat : LogLevel → ℕ
  | .TRACE => 0
  | .DEBUG => 1
  | .INFO => 2
  | .WARN => 3
  | .ERROR => 4

/-- LogMessage.h: the event record `{level, tag, message, timestamp}` passed
to every handler callback. -/
structure LogMessage where
  level : LogLevel
  tag : String
  message : String
  timestamp : ℕ
deriving DecidableEq, Repr

/-- HandlerEntry.h (src/unnamed/part_005): registration metadata for one
handler.  `handler` is the callback pointer and `context` the `void*` user
context, both opaque tokens here.  `tagList` is the entry's own copy of its
subscriptions (tag indices); its length is `tagCount`. -/
structure HandlerEntry where
  id : ℕ
  name : Option String
  level : LogLevel
  handler : ℕ
  context : ℕ
  tagList : List ℕ
  enabled : Bool
deriving DecidableEq, Repr

/-- Default constructor `HandlerEntry()`: id 0, no name, `TRACE`, null
callback and context, empty tag list, `enabled = true`. -/
def HandlerEntry.defaultCtor : HandlerEntry :=
  ⟨0, none, .TRACE, 0, 0, [], true⟩

/-- Result of `std::memset(&entry, 0, ...)`: every field zeroed, in
particular `enabled = false` (this is how part_003's `clearHandlers` wipes
the registry array). -/
def HandlerEntry.zeroed : HandlerEntry :=
  ⟨0, none, .TRACE, 0, 0, [], false⟩

instance : Inhabited HandlerEntry := ⟨HandlerEntry.defaultCtor⟩

/-- Full constructor `HandlerEntry(id_, name_, level_, fn, ctx, tags, count,
enabled_)`: copies at most `MAX_TAG_SUBSCRIPTIONS` (`maxTagSubs`) tag
pointers from the request; extras are dropped from the entry's own list. -/
def HandlerEntry.make (maxTagSubs : ℕ) (id : ℕ) (name : Option String)
    (level : LogLevel) (fn ctx : ℕ) (tags : List ℕ) : HandlerEntry :=
  ⟨id, name, level, fn, ctx, tags.take maxTagSubs, true⟩

/-- HandlerEntry::setEnabled: flips only the `enabled` flag. -/
def HandlerEntry.setEnabled (e : HandlerEntry) (b : Bool) : HandlerEntry :=
  ⟨e.id, e.name, e.level, e.handler, e.context, e.tagList, b⟩

/-- Test whether the C++ expression `e.name && strcmp(e.name, nm) == 0`
holds: a null (`none`) name never matches. -/
def nameMatches (e : HandlerEntry) (nm : String) : Bool :=
  match e.name with
  | some s => s == nm
  | none => false

/-- Modelled from the spec: `Tag.h` is not under `src/` (only a forward
declaration `struct Tag;` appears in HandlerEntry.h).  Per spec §3 a Topic is
`{name, subscriber-list[capacity N], count}`, and every access in the sources
(`tag->name`, `tag->handlers[i]`, `tag->handlerCount`) fits this shape: a
name and a bounded array of `HandlerEntry*` with its count.  The subscriber
array is embedded as a list of registry slot indices; the sources guard every
append with `handlerCount < MAX_TAG_SUBSCRIPTIONS`, which is the capacity
bound used here. -/
structure Tag where
  name : String
  handlers : List ℕ
deriving DecidableEq, Repr

/-- Tag constructor `Tag(name)`: empty subscriber list. -/
def Tag.init (name : String) : Tag := ⟨name, []⟩

instance : Inhabited Tag := ⟨Tag.init ""⟩

/-- Compile-time capacities: `LOGANYWHERE_MAX_HANDLERS` (registry capacity)
and `MAX_TAG_SUBSCRIPTIONS` (per-handler subscription capacity, which the
sources also use as the per-tag subscriber capacity).  Both are `#define`s
that may be overridden before including the headers, hence parameters here. -/
structure Config where
  maxHandlers : ℕ
  maxTagSubs : ℕ
deriving DecidableEq, Repr

/-- Default macro values: `LOGANYWHERE_MAX_HANDLERS 6`,
`MAX_TAG_SUBSCRIPTIONS 512`. -/
def defaultConfig : Config := ⟨6, 512⟩

/-- Combined state: the `HandlerManager`'s members (`handlers[]`,
`handlerCount`, `nextHandlerId`) together with the static `Tag` objects the
program owns.  `handlers` always has length `maxHandlers`; slots at index
`handlerCount` and beyond hold stale values, exactly like the C++ array. -/
structure MState where
  handlers : List HandlerEntry
  handlerCount : ℕ
  nextHandlerId : ℕ
  tags : List Tag
deriving DecidableEq, Repr

/-- HandlerManager constructor plus static construction of the given tags:
default-constructed registry slots, `handlerCount = 0`, `nextHandlerId = 1`. -/
def initState (cfg : Config) (tagNames : List String) : MState :=
  ⟨List.replicate cfg.maxHandlers HandlerEntry.defaultCtor, 0, 1,
    tagNames.map Tag.init⟩

/-- Dereference a `HandlerEntry*` (slot index) against the registry array. -/
def getEntry (hs : List HandlerEntry) (p : ℕ) : HandlerEntry :=
  hs.getD p HandlerEntry.defaultCtor

/-- Dereference a `Tag*` (tag index). -/
def getTag (ts : List Tag) (t : ℕ) : Tag :=
  ts.getD t (Tag.init "")

/-- Replace the subscriber list of tag `t` (all other fields and tags are
untouched). -/
def setTagHandlers (ts : List Tag) (t : ℕ) (hs : List ℕ) : List Tag :=
  ts.set t ⟨(getTag ts t).name, hs⟩

/-- HandlerManager::subscribeEntryToTags (part_004 lines 264-276), which is
also the loop inlined in part_003's `registerHandlerForTags` lines 103-111:
append the entry pointer to each requested tag whose subscriber array still
has room; a full tag is silently skipped. -/
def subscribeEntryToTags (cfg : Config) (tags : List Tag) (entryPtr : ℕ)
    (tagIds : List ℕ) : List Tag :=
  tagIds.foldl
    (fun ts t =>
      if (getTag ts t).handlers.length < cfg.maxTagSubs
      then setTagHandlers ts t ((getTag ts t).handlers ++ [entryPtr])
      else ts)
    tags

/-- HandlerManager::shiftHandlersDown (part_003) and
HandlerManager::compactHandlerArray (part_004): for `j` from `index` while
`j + 1 < count`, copy `handlers[j+1]` into `handlers[j]`.  Slots from
`count - 1` on keep their old contents; the array length never changes. -/
def compactRegistry (hs : List HandlerEntry) (index count : ℕ) :
    List HandlerEntry :=
  (List.range hs.length).map
    (fun j =>
      if index ≤ j ∧ j + 1 < count then getEntry hs (j + 1) else getEntry hs j)

/-- First index `i < handlerCount` whose record satisfies `p` (the linear
scans in `deleteHandlerByID` / `deleteHandlerByName` / `findEntryByID` /
`findEntryByName`). -/
def findActiveIdx (s : MState) (p : HandlerEntry → Bool) : Option ℕ :=
  (List.range s.handlerCount).find? (fun i => p (getEntry s.handlers i))

/-- HandlerManager::registerHandlerForTags — identical observable behavior in
part_003 (lines 77-114, inline) and part_004 (lines 370-382, via
`hasCapacity` / `createEntry` / `subscribeEntryToTags`): fail if
`handlerCount >= LOGANYWHERE_MAX_HANDLERS`; otherwise build the entry with
`id = nextHandlerId++` (a `uint16_t`, hence mod 2^16), store it at slot
`handlerCount`, bump the count, and subscribe the slot pointer to every
requested tag — note the subscription loop runs over the *full* request,
not over the entry's clamped copy. -/
def registerHandlerForTags (cfg : Config) (level : LogLevel) (fn ctx : ℕ)
    (tagIds : List ℕ) (name : Option String) (s : MState) : Bool × MState :=
  if s.handlerCount ≥ cfg.maxHandlers then (false, s)
  else
    let entry := HandlerEntry.make cfg.maxTagSubs s.nextHandlerId name level
      fn ctx tagIds
    let slot := s.handlerCount
    (true,
      ⟨s.handlers.set slot entry, slot + 1, (s.nextHandlerId + 1) % 65536,
        subscribeEntryToTags cfg s.tags slot tagIds⟩)

/-- HandlerManager::listHandlers: read-only view of the first
`handlerCount` records, with the count. -/
def listHandlers (s : MState) : List HandlerEntry × ℕ :=
  (s.handlers.take s.handlerCount, s.handlerCount)

/-- HandlerEntry::setEnabled applied through a `HandlerEntry*` (slot index)
into the registry array. -/
def setEnabledAt (s : MState) (i : ℕ) (b : Bool) : MState :=
  ⟨s.handlers.set i ((getEntry s.handlers i).setEnabled b), s.handlerCount,
    s.nextHandlerId, s.tags⟩

namespace HandlerManager3

/-- part_003 `deleteHandlerByID` (lines 126-151): find the first active
record with this id; remove from each tag in its `tagList` every subscriber
whose *dereferenced* id equals the target id (left-compaction by a
write-index filter); then compact the registry. -/
def deleteHandlerByID (id : ℕ) (s : MState) : Bool × MState :=
  match findActiveIdx s (fun e => e.id == id) with
  | none => (false, s)
  | some i =>
    let e := getEntry s.handlers i
    let tags1 := e.tagList.foldl
      (fun ts t =>
        setTagHandlers ts t
          ((getTag ts t).handlers.filter
            (fun p => !((getEntry s.handlers p).id == id))))
      s.tags
    (true,
      ⟨compactRegistry s.handlers i s.handlerCount, s.handlerCount - 1,
        s.nextHandlerId, tags1⟩)

/-- part_003 `deleteHandlerByName` (lines 161-189): find the first active
record whose (non-null) name matches; remove from each tag in its `tagList`
every subscriber whose dereferenced name matches — note this prunes *all*
same-named subscribers, not only the found record; then compact the
registry. -/
def deleteHandlerByName (nm : String) (s : MState) : Bool × MState :=
  match findActiveIdx s (fun e => nameMatches e nm) with
  | none => (false, s)
  | some i =>
    let e := getEntry s.handlers i
    let tags1 := e.tagList.foldl
      (fun ts t =>
        setTagHandlers ts t
          ((getTag ts t).handlers.filter
            (fun p => !(nameMatches (getEntry s.handlers p) nm))))
      s.tags
    (true,
      ⟨compactRegistry s.handlers i s.handlerCount, s.handlerCount - 1,
        s.nextHandlerId, tags1⟩)

/-- part_003 `clearHandlers` (lines 55-61): `memset` the whole registry
array to zero, reset the count and the id counter.  Tag subscriber lists are
not touched (the source comments this explicitly). -/
def clearHandlers (s : MState) : MState :=
  ⟨List.replicate s.handlers.length HandlerEntry.zeroed, 0, 1, s.tags⟩

end HandlerManager3

namespace HandlerManager4

/-- part_004 `unsubscribeEntryFromTags` (lines 324-337): for each tag in the
entry's `tagList`, remove every subscriber pointer equal to the entry's
address (slot index) — left-compaction by a write-index filter. -/
def unsubscribeEntryFromTags (s : MState) (i : ℕ) : List Tag :=
  (getEntry s.handlers i).tagList.foldl
    (fun ts t =>
      setTagHandlers ts t ((getTag ts t).handlers.filter (fun p => !(p == i))))
    s.tags

/-- part_004 `deleteHandlerByID` (lines 393-401): `findEntryByID`, then
`unsubscribeEntryFromTags`, then `compactHandlerArray`. -/
def deleteHandlerByID (id : ℕ) (s : MState) : Bool × MState :=
  match findActiveIdx s (fun e => e.id == id) with
  | none => (false, s)
  | some i =>
    (true,
      ⟨compactRegistry s.handlers i s.handlerCount, s.handlerCount - 1,
        s.nextHandlerId, unsubscribeEntryFromTags s i⟩)

/-- part_004 `deleteHandlerByName` (lines 412-420): `findEntryByName`, then
`unsubscribeEntryFromTags`, then `compactHandlerArray`. -/
def deleteHandlerByName (nm : String) (s : MState) : Bool × MState :=
  match findActiveIdx s (fun e => nameMatches e nm) with
  | none => (false, s)
  | some i =>
    (true,
      ⟨compactRegistry s.handlers i s.handlerCount, s.handlerCount - 1,
        s.nextHandlerId, unsubscribeEntryFromTags s i⟩)

/-- part_004 `clearHandlers` (lines 56-87): for each *active* record,
unsubscribe it (by pointer) from every tag in its `tagList`; then
value-initialise every registry slot (`HandlerEntry{}`, so `enabled = true`
and a null callback), reset the count and the id counter. -/
def clearHandlers (s : MState) : MState :=
  let tags1 := (List.range s.handlerCount).foldl
    (fun ts i =>
      (getEntry s.handlers i).tagList.foldl
        (fun ts2 t =>
          setTagHandlers ts2 t
            ((getTag ts2 t).handlers.filter (fun p => !(p == i))))
        ts)
    s.tags
  ⟨List.replicate s.handlers.length HandlerEntry.defaultCtor, 0, 1, tags1⟩

end HandlerManager4

/-- Modulus of the `uint64_t` fallback sequence counter. -/
def u64Mod : ℕ := 2 ^ 64

/-- Logger.h (src/include, Tag*-based variant): the dispatcher's own state.
`handlerManager` records whether the logger is bound to a non-null
`HandlerManager`; `timestampProvider` is the installed provider, embedded by
the value it returns when called; `logSequence` is the mutable fallback
counter. -/
structure Logger where
  handlerManager : Bool
  timestampProvider : Option ℕ
  logSequence : ℕ
deriving DecidableEq, Repr

/-- Logger constructor: provider null, `logSequence = 1`. -/
def Logger.construct (bound : Bool) : Logger := ⟨bound, none, 1⟩

/-- Logger::setTimestampProvider. -/
def Logger.setTimestampProvider (lg : Logger) (p : Option ℕ) : Logger :=
  ⟨lg.handlerManager, p, lg.logSequence⟩

/-- Timestamp choice in Logger::log line 78-80:
`ts = (timestamp != 0) ? timestamp : (timestampProvider ? timestampProvider() : logSequence++)`.
Returns the chosen timestamp and the new `logSequence` (a `uint64_t`, hence
the post-increment is mod 2^64 and happens only in the fallback branch). -/
def resolveTimestamp (timestamp : ℕ) (provider : Option ℕ) (seq : ℕ) :
    ℕ × ℕ :=
  if timestamp ≠ 0 then (timestamp, seq)
  else
    match provider with
    | some v => (v, seq)
    | none => (seq, (seq + 1) % u64Mod)

/-- One callback invocation `e->handler(msg, e->context)` performed by
dispatch, recorded as data. -/
structure Invocation where
  handler : ℕ
  context : ℕ
  msg : LogMessage
deriving DecidableEq, Repr

instance : Inhabited Invocation := ⟨⟨0, 0, ⟨.TRACE, "", "", 0⟩⟩⟩

/-- Logger::log (src/include/Logger.h lines 70-92): return immediately when
unbound; resolve the timestamp; build the `LogMessage` from the tag's name;
then walk `tag->handlers[0 .. handlerCount)` in order, skipping entries whose
dereferenced record is disabled or has a threshold above `level`, and invoke
the rest.  Returns the invocation sequence and the updated logger. -/
def Logger.log (s : MState) (lg : Logger) (level : LogLevel) (tagId : ℕ)
    (message : String) (timestamp : ℕ) : List Invocation × Logger :=
  if lg.handlerManager = false then ([], lg)
  else
    let r := resolveTimestamp timestamp lg.timestampProvider lg.logSequence
    let tag := getTag s.tags tagId
    let msg : LogMessage := ⟨level, tag.name, message, r.1⟩
    let invs := tag.handlers.filterMap
      (fun p =>
        let e := getEntry s.handlers p
        if e.enabled = false then none
        else if levelNat level < levelNat e.level then none
        else some ⟨e.handler, e.context, msg⟩)
    (invs, ⟨lg.handlerManager, lg.timestampProvider, r.2⟩)

/-! ### Operation traces

A small-step trace semantics over the public registry API, used to reason
about id assignment across arbitrary call sequences (claim C4).  Both
`HandlerManager` variants are available as separate operations. -/

/-- One public registry call. -/
inductive Op where
  | registerOp : LogLevel → ℕ → ℕ → List ℕ → Option String → Op
  | deleteByID3 : ℕ → Op
  | deleteByName3 : String → Op
  | deleteByID4 : ℕ → Op
  | deleteByName4 : String → Op
  | setEnabledOp : ℕ → Bool → Op
  | clear3 : Op
  | clear4 : Op
deriving DecidableEq, Repr

/-- Whether the call is a `clearHandlers` (either variant). -/
def Op.isClear : Op → Bool
  | .clear3 => true
  | .clear4 => true
  | _ => false

/-- Effect of one call on the state. -/
def applyOp (cfg : Config) (s : MState) : Op → MState
  | .registerOp lvl fn ctx tl nm => (registerHandlerForTags cfg lvl fn ctx tl nm s).2
  | .deleteByID3 id => (HandlerManager3.deleteHandlerByID id s).2
  | .deleteByName3 nm => (HandlerManager3.deleteHandlerByName nm s).2
  | .deleteByID4 id => (HandlerManager4.deleteHandlerByID id s).2
  | .deleteByName4 nm => (HandlerManager4.deleteHandlerByName nm s).2
  | .setEnabledOp i b => setEnabledAt s i b
  | .clear3 => HandlerManager3.clearHandlers s
  | .clear4 => HandlerManager4.clearHandlers s

/-- Run a call sequence from a state. -/
def runOps (cfg : Config) (s : MState) : List Op → MState
  | [] => s
  | op :: rest => runOps cfg (applyOp cfg s op) rest

/-- The ids handed out by the successful registrations of a call sequence, in
order.  A successful `registerHandlerForTags` stores `id = nextHandlerId` in
the new record (and post-increments the counter), so the id it hands out is
the state's `nextHandlerId` at the moment of the call. -/
def assignedIds (cfg : Config) (s : MState) : List Op → List ℕ
  | [] => []
  | op :: rest =>
    match op with
    | .registerOp lvl fn ctx tl nm =>
      (if (registerHandlerForTags cfg lvl fn ctx tl nm s).1
        then [s.nextHandlerId] else [])
        ++ assignedIds cfg (applyOp cfg s op) rest
    | _ => assignedIds cfg (applyOp cfg s op) rest

/-! ### Concrete scenario states used by individual claims -/

/-- Claim C1 scenario: three handlers (callbacks 1, 2, 3, contexts 101, 102,
103) all subscribed to tag 0 ("A") at threshold `TRACE`; then handler id 1 is
deleted (part_003 path). -/
def c1State : MState :=
  (HandlerManager3.deleteHandlerByID 1
    (registerHandlerForTags defaultConfig .TRACE 3 103 [0] none
      (registerHandlerForTags defaultConfig .TRACE 2 102 [0] none
        (registerHandlerForTags defaultConfig .TRACE 1 101 [0] none
          (initState defaultConfig ["A"])).2).2).2).2

/-- Claim C2 scenario: handlers 1 and 2 (callbacks 1, 2) on tag 0 ("A");
delete id 1 then id 2 through the part_004 path.  The result of the second
`deleteHandlerByID` call is kept (flag and state). -/
def c2Result : Bool × MState :=
  HandlerManager4.deleteHandlerByID 2
    (HandlerManager4.deleteHandlerByID 1
      (registerHandlerForTags defaultConfig .TRACE 2 102 [0] none
        (registerHandlerForTags defaultConfig .TRACE 1 101 [0] none
          (initState defaultConfig ["A"])).2).2).2

/-- Claim C3 witness state: a registry of capacity 1 filled by one
registration. -/
def c3FullState : MState :=
  (registerHandlerForTags ⟨1, 1⟩ .TRACE 1 0 [] none (initState ⟨1, 1⟩ [])).2

/-- Claim C4 counterexample: one register-then-delete round (empty topic
list), which frees the slot again but advances the id counter. -/
def regDelStep (s : MState) : MState :=
  (HandlerManager3.deleteHandlerByID s.nextHandlerId
    (registerHandlerForTags defaultConfig .TRACE 0 0 [] none s).2).2

/-- Claim C4 counterexample: the state after `n` register/delete rounds from
a fresh manager. -/
def regDelIter : ℕ → MState
  | 0 => initState defaultConfig []
  | n + 1 => regDelStep (regDelIter n)

/-- Claim C5 scenario: one handler (callback 1, threshold `TRACE`) on tag 0
("SEQ"), so every dispatched timestamp is observable in the invocation. -/
def c5Sys : MState :=
  (registerHandlerForTags defaultConfig .TRACE 1 0 [0] none
    (initState defaultConfig ["SEQ"])).2

/-- Claim C5 scenario: one `log` call with explicit timestamp 0 and no
provider installed, keeping only the logger state. -/
def c5LoggerStep (lg : Logger) : Logger :=
  (Logger.log c5Sys lg .INFO 0 "tick" 0).2

/-- Claim C5 scenario: the logger after `n` fallback-timestamp calls. -/
def c5LoggerAfter : ℕ → Logger
  | 0 => Logger.construct true
  | n + 1 => c5LoggerStep (c5LoggerAfter n)

/-- Claim C5 scenario: the event timestamp delivered by the k-th `log` call
(k ≥ 1) of the fallback trace. -/
def c5TsOfCall (k : ℕ) : ℕ :=
  ((Logger.log c5Sys (c5LoggerAfter (k - 1)) .INFO 0 "tick" 0).1.headD
    default).msg.timestamp

/-- Claim C6 scenario: one handler (callback 1) subscribed to tag 0 ("A"). -/
def c6Base : MState :=
  (registerHandlerForTags defaultConfig .TRACE 1 101 [0] none
    (initState defaultConfig ["A"])).2

/-- Claim C7 witness state: capacities ⟨2, 1⟩; handler 1 fills tag 0 ("A")
to its capacity of 1, tag 1 ("B") stays empty, the registry has room. -/
def c7WitnessState : MState :=
  (registerHandlerForTags ⟨2, 1⟩ .TRACE 1 0 [0] none
    (initState ⟨2, 1⟩ ["A", "B"])).2

/-- Claim C8 scenario: capacities ⟨6, 1⟩ (`MAX_TAG_SUBSCRIPTIONS`
overridden to 1); one registration requesting two tags, so the request
exceeds the per-handler subscription capacity. -/
def c8Reg : Bool × MState :=
  registerHandlerForTags ⟨6, 1⟩ .TRACE 1 101 [0, 1] none
    (initState ⟨6, 1⟩ ["A", "B"])

/-- Claim C8 scenario: deleting the handler afterwards. -/
def c8Del : Bool × MState :=
  HandlerManager3.deleteHandlerByID 1 c8Reg.2

/-- Claim C10 scenario: handlers 1 and 2 on tag 0 ("A"); handler 1 is
deleted (part_003 path), then the surviving record — the one `listHandlers`
now exposes at index 0 — is disabled via `setEnabled(false)`. -/
def c10State : MState :=
  setEnabledAt
    (HandlerManager3.deleteHandlerByID 1
      (registerHandlerForTags defaultConfig .TRACE 2 102 [0] none
        (registerHandlerForTags defaultConfig .TRACE 1 101 [0] none
          (initState defaultConfig ["A"])).2).2).2
    0 false

/-! ### Helper lemmas -/

/-- Reading back the slot just written. -/
lemma getD_set_self_of_lt {α : Type} (l : List α) (i : ℕ) (a d : α)
    (h : i < l.length) : (l.set i a).getD i d = a := by
  simp [List.getD_eq_getElem?_getD, List.getElem?_set_self h]

/-- Writing one slot leaves every other slot unchanged. -/
lemma getD_set_of_ne {α : Type} (l : List α) (i j : ℕ) (a d : α)
    (h : i ≠ j) : (l.set i a).getD j d = l.getD j d := by
  simp [List.getD_eq_getElem?_getD, List.getElem?_set_ne h]

/-! ### Claim theorems -/

/-- C1.  The claim states that `log(level, tag, message)` invokes exactly the
enabled, threshold-satisfying handlers of the tag's subscriber list, each
exactly once, in registration order.  The code violates it: with handlers
1, 2, 3 (callbacks 1, 2, 3) registered on tag "A" and handler 1 deleted,
the registry still lists handlers 2 and 3 (both enabled, threshold TRACE),
but one `log(INFO, A, m)` call invokes callback 3 twice — with context 103
both times — and callback 2 never.  The tag's stored `HandlerEntry*` values
(slots 1 and 2) were not re-pointed when `deleteHandlerByID` compacted the
registry array underneath them. -/
theorem c1_dispatch_duplicates_after_delete :
    (listHandlers c1State).1.map (fun e => e.handler) = [2, 3]
    ∧ (getTag c1State.tags 0).handlers = [1, 2]
    ∧ (Logger.log c1State (Logger.construct true) .INFO 0 "m" 0).1.map
        (fun i => (i.handler, i.context)) = [(3, 103), (3, 103)] := by
  decide

/-- C2.  The claim states that after a removal call returns `true`, no
topic's subscriber list still references the removed handler.  The part_004
path violates it: register handlers 1 and 2 on tag "A", delete id 1, then
delete id 2 — the second call returns `true` and empties the registry, yet
tag "A" still holds the subscriber pointer to slot 1, that slot still holds
handler 2's record (id 2), and a subsequent `log` call invokes handler 2's
callback.  `unsubscribeEntryFromTags` compares pointers against
`&handlers[0]` (where the record sits after the first compaction), missing
the stale duplicate at slot 1. -/
theorem c2_removed_handler_still_referenced :
    c2Result.1 = true
    ∧ c2Result.2.handlerCount = 0
    ∧ (getTag c2Result.2.tags 0).handlers = [1]
    ∧ (getEntry c2Result.2.handlers 1).id = 2
    ∧ (Logger.log c2Result.2 (Logger.construct true) .INFO 0 "m" 0).1.map
        (fun i => i.handler) = [2] := by
  decide

/-- C3.  When the active count equals `LOGANYWHERE_MAX_HANDLERS`, the next
registration returns the failure value and leaves the whole state — registry
array, count, id counter and every tag's subscriber list — exactly as it
was.  Both sources check capacity before any mutation, so the state is
returned untouched. -/
theorem c3_register_full_registry_unchanged (cfg : Config) (s : MState)
    (h : s.handlerCount = cfg.maxHandlers) (lvl : LogLevel) (fn ctx : ℕ)
    (tagIds : List ℕ) (nm : Option String) :
    registerHandlerForTags cfg lvl fn ctx tagIds nm s = (false, s) := by
  simp [registerHandlerForTags, h]

/-- C3 witness: a capacity-1 registry filled by one registration rejects the
next registration unchanged. -/
theorem c3_register_full_registry_unchanged_witness :
    registerHandlerForTags ⟨1, 1⟩ .TRACE 2 0 [] none c3FullState
      = (false, c3FullState) :=
  c3_register_full_registry_unchanged ⟨1, 1⟩ c3FullState (by decide) .TRACE
    2 0 [] none

/-- C6.  The claim states that `clearHandlers` unsubscribes every record
from its topics.  The part_003 variant violates it: with one handler
(callback 1) subscribed to tag "A", its `clearHandlers` empties the registry
and resets the id counter but leaves tag "A"'s subscriber list still holding
the pre-clear entry (slot 0), while the part_004 variant prunes the list to
empty as the claim requires. -/
theorem c6_clear_variants_disagree_on_pruning :
    (HandlerManager3.clearHandlers c6Base).handlerCount = 0
    ∧ (HandlerManager3.clearHandlers c6Base).nextHandlerId = 1
    ∧ (getTag (HandlerManager3.clearHandlers c6Base).tags 0).handlers = [0]
    ∧ (getTag (HandlerManager4.clearHandlers c6Base).tags 0).handlers
        = [] := by
  decide

/-- C8.  The claim states that topics beyond `MAX_TAG_SUBSCRIPTIONS` are
truncated and have no effect on any state.  The code violates it: with the
capacity overridden to 1, registering one handler for tags "A" and "B"
clamps the entry's own list to `[A]`, yet the subscription loop (which runs
over the full request) still appends the handler to "B"'s subscriber list,
"B" dispatches to it, and `deleteHandlerByID` — which walks only the
entry's clamped list — leaves the dangling "B" subscription behind even
after the registry is emptied. -/
theorem c8_subscribe_ignores_tag_clamp :
    c8Reg.1 = true
    ∧ (getEntry c8Reg.2.handlers 0).tagList = [0]
    ∧ (getTag c8Reg.2.tags 1).handlers = [0]
    ∧ (Logger.log c8Reg.2 (Logger.construct true) .INFO 1 "m" 0).1.map
        (fun i => i.handler) = [1]
    ∧ c8Del.1 = true
    ∧ c8Del.2.handlerCount = 0
    ∧ (getTag c8Del.2.tags 1).handlers = [0] := by
  decide

/-- C10.  The claim states that a handler disabled via `setEnabled(false)`
is merely skipped by dispatch.  The code violates it after a registry
compaction: with handlers 1 and 2 on tag "A" and handler 1 deleted, the
surviving record (id 2) sits at slot 0 — where `listHandlers` exposes it and
where `setEnabled(false)` flips its flag — but tag "A"'s subscriber pointer
still addresses slot 1, whose stale copy of the record is still enabled, so
one `log(INFO, A, m)` call invokes the disabled handler's callback anyway. -/
theorem c10_disabled_handler_still_invoked :
    (getEntry c10State.handlers 0).enabled = false
    ∧ (getEntry c10State.handlers 0).id = 2
    ∧ (listHandlers c10State).2 = 1
    ∧ (Logger.log c10State (Logger.construct true) .INFO 0 "m" 0).1.map
        (fun i => i.handler) = [2] := by
  decide

/-- C9.  In the part_003 `deleteHandlerByName`, when two active handlers
carry the same name and are both subscribed to the same topic, the call
deletes only the first matching handler from the registry (the survivor
keeps its id and all metadata and is still listed), yet prunes *both*
handlers' entries from the topic's subscriber list — the tag-side filter
matches by name, not by identity — so the surviving same-named handler no
longer receives events emitted on that topic. -/
theorem c9_delete_by_name_with_duplicate_names (lvl1 lvl2 lvl3 : LogLevel)
    (cb1 cb2 ctx1 ctx2 : ℕ) (nm tagName m : String) :
    (HandlerManager3.deleteHandlerByName nm
        (registerHandlerForTags defaultConfig lvl2 cb2 ctx2 [0] (some nm)
          (registerHandlerForTags defaultConfig lvl1 cb1 ctx1 [0] (some nm)
            (initState defaultConfig [tagName])).2).2).1 = true
    ∧ (HandlerManager3.deleteHandlerByName nm
        (registerHandlerForTags defaultConfig lvl2 cb2 ctx2 [0] (some nm)
          (registerHandlerForTags defaultConfig lvl1 cb1 ctx1 [0] (some nm)
            (initState defaultConfig [tagName])).2).2).2.handlerCount = 1
    ∧ getEntry (HandlerManager3.deleteHandlerByName nm
        (registerHandlerForTags defaultConfig lvl2 cb2 ctx2 [0] (some nm)
          (registerHandlerForTags defaultConfig lvl1 cb1 ctx1 [0] (some nm)
            (initState defaultConfig [tagName])).2).2).2.handlers 0
        = ⟨2, some nm, lvl2, cb2, ctx2, [0], true⟩
    ∧ (getTag (HandlerManager3.deleteHandlerByName nm
        (registerHandlerForTags defaultConfig lvl2 cb2 ctx2 [0] (some nm)
          (registerHandlerForTags defaultConfig lvl1 cb1 ctx1 [0] (some nm)
            (initState defaultConfig [tagName])).2).2).2.tags 0).handlers = []
    ∧ (Logger.log (HandlerManager3.deleteHandlerByName nm
        (registerHandlerForTags defaultConfig lvl2 cb2 ctx2 [0] (some nm)
          (registerHandlerForTags defaultConfig lvl1 cb1 ctx1 [0] (some nm)
            (initState defaultConfig [tagName])).2).2).2
        (Logger.construct true) lvl3 0 m 0).1 = [] := by
  have hrr : (registerHandlerForTags defaultConfig lvl2 cb2 ctx2 [0] (some nm)
      (registerHandlerForTags defaultConfig lvl1 cb1 ctx1 [0] (some nm)
        (initState defaultConfig [tagName])).2).2
      = ⟨[⟨1, some nm, lvl1, cb1, ctx1, [0], true⟩,
          ⟨2, some nm, lvl2, cb2, ctx2, [0], true⟩,
          HandlerEntry.defaultCtor, HandlerEntry.defaultCtor,
          HandlerEntry.defaultCtor, HandlerEntry.defaultCtor], 2, 3,
         [⟨tagName, [0, 1]⟩]⟩ := rfl
  rw [hrr]
  simp [HandlerManager3.deleteHandlerByName, findActiveIdx, getEntry,
    nameMatches, List.range_succ, setTagHandlers, getTag, compactRegistry,
    Logger.log, List.getD, Logger.construct, resolveTimestamp]

/-! ### Lemmas about id assignment (claim C4) -/

/-- Registration that fails returns the state untouched. -/
lemma register_result_of_fail (cfg : Config) (lvl : LogLevel) (fn ctx : ℕ)
    (tagIds : List ℕ) (nm : Option String) (s : MState)
    (h : (registerHandlerForTags cfg lvl fn ctx tagIds nm s).1 = false) :
    (registerHandlerForTags cfg lvl fn ctx tagIds nm s).2 = s := by
  by_cases hc : s.handlerCount ≥ cfg.maxHandlers
  · simp [registerHandlerForTags, hc]
  · simp [registerHandlerForTags, hc] at h

/-- Successful registration post-increments the 16-bit id counter. -/
lemma register_nextId_of_success (cfg : Config) (lvl : LogLevel) (fn ctx : ℕ)
    (tagIds : List ℕ) (nm : Option String) (s : MState)
    (h : (registerHandlerForTags cfg lvl fn ctx tagIds nm s).1 = true) :
    (registerHandlerForTags cfg lvl fn ctx tagIds nm s).2.nextHandlerId
      = (s.nextHandlerId + 1) % 65536 := by
  by_cases hc : s.handlerCount ≥ cfg.maxHandlers
  · simp [registerHandlerForTags, hc] at h
  · simp [registerHandlerForTags, hc]

/-- part_003 `deleteHandlerByID` never touches the id counter. -/
lemma deleteByID3_nextId (id : ℕ) (s : MState) :
    (HandlerManager3.deleteHandlerByID id s).2.nextHandlerId
      = s.nextHandlerId := by
  cases hfind : findActiveIdx s (fun e => e.id == id) <;>
    simp [HandlerManager3.deleteHandlerByID, hfind]

/-- part_003 `deleteHandlerByName` never touches the id counter. -/
lemma deleteByName3_nextId (nm : String) (s : MState) :
    (HandlerManager3.deleteHandlerByName nm s).2.nextHandlerId
      = s.nextHandlerId := by
  cases hfind : findActiveIdx s (fun e => nameMatches e nm) <;>
    simp [HandlerManager3.deleteHandlerByName, hfind]

/-- part_004 `deleteHandlerByID` never touches the id counter. -/
lemma deleteByID4_nextId (id : ℕ) (s : MState) :
    (HandlerManager4.deleteHandlerByID id s).2.nextHandlerId
      = s.nextHandlerId := by
  cases hfind : findActiveIdx s (fun e => e.id == id) <;>
    simp [HandlerManager4.deleteHandlerByID, hfind]

/-- part_004 `deleteHandlerByName` never touches the id counter. -/
lemma deleteByName4_nextId (nm : String) (s : MState) :
    (HandlerManager4.deleteHandlerByName nm s).2.nextHandlerId
      = s.nextHandlerId := by
  cases hfind : findActiveIdx s (fun e => nameMatches e nm) <;>
    simp [HandlerManager4.deleteHandlerByName, hfind]

/-- Running a concatenation of call sequences composes. -/
lemma runOps_append (cfg : Config) (s : MState) (l1 l2 : List Op) :
    runOps cfg s (l1 ++ l2) = runOps cfg (runOps cfg s l1) l2 := by
  induction l1 generalizing s with
  | nil => rfl
  | cons op rest ih => simp [runOps, ih]

/-- Prepending the counter value to a run of successor values mod 2^16. -/
lemma shifted_mod_range (a L : ℕ) (ha : a < 65536) :
    a :: (List.range L).map (fun k => ((a + 1) % 65536 + k) % 65536)
      = (List.range (L + 1)).map (fun k => (a + k) % 65536) := by
  rw [List.range_succ_eq_map, List.map_cons, List.map_map]
  refine congrArg₂ (· :: ·) ?_ ?_
  · simp [Nat.mod_eq_of_lt ha]
  · have hf : (fun k => ((a + 1) % 65536 + k) % 65536)
        = ((fun k => (a + k) % 65536) ∘ Nat.succ) := by
      funext k
      simp only [Function.comp]
      rw [Nat.mod_add_mod]
      congr 1
      omega
    rw [hf]

/-- Main invariant behind claim C4: along any call sequence without
`clearHandlers`, the ids handed out by the successful registrations are the
consecutive values of the 16-bit counter starting from the current one. -/
lemma assignedIds_formula (cfg : Config) : ∀ (ops : List Op) (s : MState),
    (∀ op ∈ ops, op.isClear = false) → s.nextHandlerId < 65536 →
    assignedIds cfg s ops
      = (List.range (assignedIds cfg s ops).length).map
          (fun k => (s.nextHandlerId + k) % 65536) := by
  intro ops
  induction ops with
  | nil => intro s _ _; simp [assignedIds]
  | cons op rest ih =>
    intro s hnc hlt
    have hrest : ∀ o ∈ rest, o.isClear = false := fun o ho =>
      hnc o (List.mem_cons_of_mem _ ho)
    cases op with
    | registerOp lvl fn ctx tl nm =>
      cases hr : (registerHandlerForTags cfg lvl fn ctx tl nm s).1 with
      | false =>
        have hs2 := register_result_of_fail cfg lvl fn ctx tl nm s hr
        simp only [assignedIds, applyOp, hr, if_false, List.nil_append, hs2]
        exact ih s hrest hlt
      | true =>
        have hs2 := register_nextId_of_success cfg lvl fn ctx tl nm s hr
        have hlt2 : (registerHandlerForTags cfg lvl fn ctx tl nm s).2.nextHandlerId
            < 65536 := by
          rw [hs2]; exact Nat.mod_lt _ (by norm_num)
        have htail := ih (registerHandlerForTags cfg lvl fn ctx tl nm s).2 hrest hlt2
        simp only [assignedIds, applyOp, hr, if_true, List.singleton_append]
        rw [htail, hs2, List.length_cons, List.length_map, List.length_range]
        exact (shifted_mod_range s.nextHandlerId _ hlt).symm ▸ rfl
    | deleteByID3 id =>
      simp only [assignedIds, applyOp]
      rw [ih _ hrest (by rw [deleteByID3_nextId]; exact hlt), deleteByID3_nextId]
      simp
    | deleteByName3 nm =>
      simp only [assignedIds, applyOp]
      rw [ih _ hrest (by rw [deleteByName3_nextId]; exact hlt), deleteByName3_nextId]
      simp
    | deleteByID4 id =>
      simp only [assignedIds, applyOp]
      rw [ih _ hrest (by rw [deleteByID4_nextId]; exact hlt), deleteByID4_nextId]
      simp
    | deleteByName4 nm =>
      simp only [assignedIds, applyOp]
      rw [ih _ hrest (by rw [deleteByName4_nextId]; exact hlt), deleteByName4_nextId]
      simp
    | setEnabledOp i b =>
      simp only [assignedIds, applyOp]
      have hse : (setEnabledAt s i b).nextHandlerId = s.nextHandlerId := rfl
      rw [ih _ hrest (by rw [hse]; exact hlt), hse]
      simp
    | clear3 => exact absurd (hnc _ (List.mem_cons_self _ _)) (by simp [Op.isClear])
    | clear4 => exact absurd (hnc _ (List.mem_cons_self _ _)) (by simp [Op.isClear])

/-- One register/delete round keeps the registry empty and advances the
16-bit id counter by one. -/
lemma regDelStep_spec (s : MState) (h0 : s.handlerCount = 0)
    (hlen : s.handlers.length = 6) :
    (regDelStep s).handlerCount = 0 ∧ (regDelStep s).handlers.length = 6
    ∧ (regDelStep s).nextHandlerId = (s.nextHandlerId + 1) % 65536 := by
  obtain ⟨hs, cnt, nid, tg⟩ := s
  simp only [MState.handlerCount] at h0
  subst h0
  simp only [MState.handlers] at hlen
  have hreg : registerHandlerForTags defaultConfig .TRACE 0 0 [] none ⟨hs, 0, nid, tg⟩
      = (true, ⟨hs.set 0 (HandlerEntry.make 512 nid none .TRACE 0 0 []), 1,
          (nid + 1) % 65536, tg⟩) := by
    simp [registerHandlerForTags, defaultConfig, subscribeEntryToTags]
  have hget : getEntry (hs.set 0 (HandlerEntry.make 512 nid none .TRACE 0 0 [])) 0
      = HandlerEntry.make 512 nid none .TRACE 0 0 [] :=
    getD_set_self_of_lt _ _ _ _ (by simp [hlen])
  have hdel : HandlerManager3.deleteHandlerByID nid
      ⟨hs.set 0 (HandlerEntry.make 512 nid none .TRACE 0 0 []), 1,
        (nid + 1) % 65536, tg⟩
      = (true, ⟨compactRegistry
          (hs.set 0 (HandlerEntry.make 512 nid none .TRACE 0 0 [])) 0 1, 0,
          (nid + 1) % 65536, tg⟩) := by
    simp only [HandlerManager3.deleteHandlerByID, findActiveIdx]
    rw [show List.range 1 = [0] from rfl]
    rw [List.find?_cons_of_pos _ (by rw [hget]; simp [HandlerEntry.make])]
    simp [hget]
    simp [HandlerEntry.make]
  simp only [regDelStep]
  rw [hreg, hdel]
  refine ⟨rfl, ?_, rfl⟩
  simp [compactRegistry, hlen]

/-- State invariant of the register/delete iteration: after `n` rounds the
registry is empty and the id counter reads `(1 + n) mod 2^16`. -/
lemma regDelIter_spec : ∀ n : ℕ,
    (regDelIter n).handlerCount = 0 ∧ (regDelIter n).handlers.length = 6
    ∧ (regDelIter n).nextHandlerId = (1 + n) % 65536 := by
  intro n
  induction n with
  | zero =>
    refine ⟨rfl, rfl, ?_⟩
    simp [regDelIter, initState]
  | succ n ih =>
    obtain ⟨h0, hlen, hid⟩ := ih
    obtain ⟨g0, glen, gid⟩ := regDelStep_spec (regDelIter n) h0 hlen
    refine ⟨g0, glen, ?_⟩
    rw [show regDelIter (n + 1) = regDelStep (regDelIter n) from rfl]
    rw [gid, hid, Nat.mod_add_mod]
    omega

/-- C4 counterexample.  The claim states that with no `clear()`, the k-th
successful registration receives id k.  `nextHandlerId` is a `uint16_t`:
after 65535 successful register/delete rounds (each one frees the slot again
but advances the counter), the 65536-th successful registration stores id 0
in its record, not 65536 — consecutive ids differ by one only modulo
2^16. -/
theorem c4_id_wraps_at_65536 :
    (registerHandlerForTags defaultConfig .TRACE 0 0 [] none (regDelIter 65535)).1 = true
    ∧ (getEntry (registerHandlerForTags defaultConfig .TRACE 0 0 [] none
        (regDelIter 65535)).2.handlers 0).id = 0
    ∧ (0 : ℕ) ≠ 65536 := by
  obtain ⟨h0, hlen, hid⟩ := regDelIter_spec 65535
  have hid0 : (regDelIter 65535).nextHandlerId = 0 := by rw [hid]
  generalize hg : regDelIter 65535 = s0 at h0 hlen hid0 ⊢
  obtain ⟨hs, cnt, nid, tg⟩ := s0
  subst h0
  subst hid0
  have hreg : registerHandlerForTags defaultConfig .TRACE 0 0 [] none ⟨hs, 0, 0, tg⟩
      = (true, ⟨hs.set 0 (HandlerEntry.make 512 0 none .TRACE 0 0 []), 1,
          (0 + 1) % 65536, tg⟩) := by
    simp [registerHandlerForTags, defaultConfig, subscribeEntryToTags]
  rw [hreg]
  refine ⟨rfl, ?_, by norm_num⟩
  show (getEntry (hs.set 0 (HandlerEntry.make 512 0 none .TRACE 0 0 [])) 0).id = 0
  simp only [getEntry]
  rw [getD_set_self_of_lt _ _ _ _ (by simp [hlen])]
  simp [HandlerEntry.make]

/-- C4 as amended.  Ids are assigned from the 16-bit `nextHandlerId`
counter: in any call sequence with no `clearHandlers` (either variant), the
k-th successful registration — counted 1-based from construction — receives
id `k mod 2^16`, so consecutive successful registrations receive ids that
differ by one modulo 2^16; and after a `clearHandlers` the counter restarts,
so the k-th successful registration after the clear again receives
`k mod 2^16` (in particular the first one receives id 1). -/
theorem c4_ids_follow_counter_mod_2_16 :
    (∀ (cfg : Config) (t0 : List String) (ops : List Op),
        (∀ op ∈ ops, op.isClear = false) →
        assignedIds cfg (initState cfg t0) ops
          = (List.range (assignedIds cfg (initState cfg t0) ops).length).map
              (fun k => (1 + k) % 65536))
    ∧ (∀ (cfg : Config) (t0 : List String) (pre ops : List Op),
        (∀ op ∈ ops, op.isClear = false) →
        assignedIds cfg (runOps cfg (initState cfg t0) (pre ++ [Op.clear3])) ops
          = (List.range (assignedIds cfg
              (runOps cfg (initState cfg t0) (pre ++ [Op.clear3])) ops).length).map
              (fun k => (1 + k) % 65536))
    ∧ (∀ (cfg : Config) (t0 : List String) (pre ops : List Op),
        (∀ op ∈ ops, op.isClear = false) →
        assignedIds cfg (runOps cfg (initState cfg t0) (pre ++ [Op.clear4])) ops
          = (List.range (assignedIds cfg
              (runOps cfg (initState cfg t0) (pre ++ [Op.clear4])) ops).length).map
              (fun k => (1 + k) % 65536)) := by
  refine ⟨?_, ?_, ?_⟩
  · intro cfg t0 ops hnc
    have h := assignedIds_formula cfg ops (initState cfg t0) hnc
      (by norm_num [initState])
    simpa [initState] using h
  · intro cfg t0 pre ops hnc
    have hclear : (runOps cfg (initState cfg t0)
        (pre ++ [Op.clear3])).nextHandlerId = 1 := by
      rw [runOps_append]
      rfl
    have h := assignedIds_formula cfg ops _ hnc (by rw [hclear]; norm_num)
    rw [h, hclear]
    simp
  · intro cfg t0 pre ops hnc
    have hclear : (runOps cfg (initState cfg t0)
        (pre ++ [Op.clear4])).nextHandlerId = 1 := by
      rw [runOps_append]
      rfl
    have h := assignedIds_formula cfg ops _ hnc (by rw [hclear]; norm_num)
    rw [h, hclear]
    simp

/-- C4 witness: two registrations from a fresh manager receive ids 1 and 2;
after a clear, the next successful registration receives id 1 again. -/
theorem c4_ids_follow_counter_mod_2_16_witness :
    assignedIds defaultConfig (initState defaultConfig ["A"])
      [Op.registerOp .TRACE 1 0 [0] none, Op.registerOp .TRACE 2 0 [0] none]
      = [1, 2]
    ∧ assignedIds defaultConfig
        (runOps defaultConfig (initState defaultConfig ["A"])
          ([Op.registerOp .TRACE 1 0 [0] none] ++ [Op.clear3]))
        [Op.registerOp .TRACE 3 0 [0] none] = [1] := by
  constructor
  · have h := c4_ids_follow_counter_mod_2_16.1 defaultConfig ["A"]
      [Op.registerOp .TRACE 1 0 [0] none, Op.registerOp .TRACE 2 0 [0] none]
      (by decide)
    rw [h]; decide
  · have h := c4_ids_follow_counter_mod_2_16.2.1 defaultConfig ["A"]
      [Op.registerOp .TRACE 1 0 [0] none] [Op.registerOp .TRACE 3 0 [0] none]
      (by decide)
    rw [h]; decide

/-! ### Lemmas about timestamp resolution (claim C5) -/

/-- One fallback-timestamp `log` call advances `logSequence` modulo 2^64. -/
lemma c5LoggerStep_seq (m : ℕ) :
    c5LoggerStep ⟨true, none, m⟩ = ⟨true, none, (m + 1) % u64Mod⟩ := rfl

/-- After `n` fallback calls the counter reads `(1 + n) mod 2^64`. -/
lemma c5LoggerAfter_spec : ∀ n : ℕ,
    c5LoggerAfter n = ⟨true, none, (1 + n) % u64Mod⟩ := by
  intro n
  induction n with
  | zero =>
    show Logger.construct true = _
    rw [show (1 + 0) % u64Mod = 1 from Nat.mod_eq_of_lt (by norm_num [u64Mod])]
    rfl
  | succ n ih =>
    show c5LoggerStep (c5LoggerAfter n) = _
    rw [ih, c5LoggerStep_seq, Nat.mod_add_mod,
      show 1 + n + 1 = 1 + (n + 1) by omega]

/-- A fallback call with counter value `m` delivers exactly one invocation
carrying timestamp `m`. -/
lemma c5_dispatch_eval (m : ℕ) :
    (Logger.log c5Sys ⟨true, none, m⟩ .INFO 0 "tick" 0).1
      = [⟨1, 0, ⟨.INFO, "SEQ", "tick", m⟩⟩] := rfl

/-- The k-th fallback call delivers timestamp `k mod 2^64`. -/
lemma c5TsOfCall_formula (k : ℕ) :
    c5TsOfCall (k + 1) = (k + 1) % u64Mod := by
  unfold c5TsOfCall
  rw [Nat.add_sub_cancel, c5LoggerAfter_spec k, c5_dispatch_eval]
  show (1 + k) % u64Mod = (k + 1) % u64Mod
  congr 1
  omega

/-- C5 counterexample.  The claim states that the internal fallback
sequence counter yields strictly increasing values.  `logSequence` is a
`uint64_t`: in the fallback trace the 2^64-th `log` call delivers timestamp
0 while the preceding call delivered 2^64 − 1, so the delivered values are
not strictly increasing — they increase only modulo 2^64. -/
theorem c5_fallback_counter_wraps :
    c5TsOfCall (2 ^ 64) = 0
    ∧ c5TsOfCall (2 ^ 64 - 1) = 2 ^ 64 - 1
    ∧ ¬(c5TsOfCall (2 ^ 64 - 1) < c5TsOfCall (2 ^ 64)) := by
  have h1 : c5TsOfCall (2 ^ 64) = 0 := by
    have h := c5TsOfCall_formula (2 ^ 64 - 1)
    rw [show (2 : ℕ) ^ 64 - 1 + 1 = 2 ^ 64 by norm_num] at h
    rw [h, u64Mod, Nat.mod_self]
  have h2 : c5TsOfCall (2 ^ 64 - 1) = 2 ^ 64 - 1 := by
    have h := c5TsOfCall_formula (2 ^ 64 - 2)
    rw [show (2 : ℕ) ^ 64 - 2 + 1 = 2 ^ 64 - 1 by norm_num] at h
    rw [h]
    exact Nat.mod_eq_of_lt (by norm_num [u64Mod])
  refine ⟨h1, h2, ?_⟩
  rw [h1, h2]
  exact Nat.not_lt_zero _

/-- C5 as amended.  Timestamp precedence in `Logger::log` is: a nonzero
explicit timestamp is used as passed (and the fallback counter is not
touched, even when a provider is installed); otherwise an installed
provider's return value is used (counter again untouched); otherwise the
fallback counter value is used and the counter — a `uint64_t`, starting at
1 from the constructor — is post-incremented modulo 2^64, only on the calls
that use it; in the fallback trace the k-th delivered timestamp is
`k mod 2^64`, strictly increasing while fewer than 2^64 timestamps have
been drawn. -/
theorem c5_timestamp_precedence :
    (∀ (p : Option ℕ) (q e : ℕ) (lvl : LogLevel) (m : String),
        (Logger.log c5Sys ⟨true, p, q⟩ lvl 0 m (e + 1)).1.map
            (fun i => i.msg.timestamp) = [e + 1]
        ∧ (Logger.log c5Sys ⟨true, p, q⟩ lvl 0 m (e + 1)).2.logSequence = q)
    ∧ (∀ (v q : ℕ) (lvl : LogLevel) (m : String),
        (Logger.log c5Sys ⟨true, some v, q⟩ lvl 0 m 0).1.map
            (fun i => i.msg.timestamp) = [v]
        ∧ (Logger.log c5Sys ⟨true, some v, q⟩ lvl 0 m 0).2.logSequence = q)
    ∧ (∀ (q : ℕ) (lvl : LogLevel) (m : String),
        (Logger.log c5Sys ⟨true, none, q⟩ lvl 0 m 0).1.map
            (fun i => i.msg.timestamp) = [q]
        ∧ (Logger.log c5Sys ⟨true, none, q⟩ lvl 0 m 0).2.logSequence
            = (q + 1) % u64Mod)
    ∧ (∀ b : Bool, (Logger.construct b).logSequence = 1
        ∧ (Logger.construct b).timestampProvider = none)
    ∧ (∀ k : ℕ, c5TsOfCall (k + 1) = (k + 1) % u64Mod) :=
  ⟨fun _ _ _ _ _ => ⟨rfl, rfl⟩, fun _ _ _ _ => ⟨rfl, rfl⟩,
    fun _ _ _ => ⟨rfl, rfl⟩, fun _ => ⟨rfl, rfl⟩, c5TsOfCall_formula⟩

/-! ### Lemmas about per-tag subscription (claim C7) -/

/-- Rewriting one tag's subscriber list leaves the others unchanged. -/
lemma getTag_setTagHandlers_ne (ts : List Tag) (t u : ℕ) (hs : List ℕ)
    (h : t ≠ u) : getTag (setTagHandlers ts t hs) u = getTag ts u := by
  simp only [getTag, setTagHandlers]
  exact getD_set_of_ne _ _ _ _ _ h

/-- Rewriting one tag's subscriber list keeps its name. -/
lemma getTag_setTagHandlers_self (ts : List Tag) (t : ℕ) (hs : List ℕ)
    (h : t < ts.length) :
    getTag (setTagHandlers ts t hs) t = ⟨(getTag ts t).name, hs⟩ := by
  simp only [getTag, setTagHandlers]
  exact getD_set_self_of_lt _ _ _ _ h

/-- Rewriting one tag's subscriber list preserves the number of tags. -/
lemma length_setTagHandlers (ts : List Tag) (t : ℕ) (hs : List ℕ) :
    (setTagHandlers ts t hs).length = ts.length := by
  simp [setTagHandlers]

/-- Unfolding one step of the subscription loop. -/
lemma subscribe_step (cfg : Config) (ts : List Tag) (ptr t0 : ℕ)
    (rest : List ℕ) :
    subscribeEntryToTags cfg ts ptr (t0 :: rest)
      = subscribeEntryToTags cfg
          (if (getTag ts t0).handlers.length < cfg.maxTagSubs
            then setTagHandlers ts t0 ((getTag ts t0).handlers ++ [ptr])
            else ts) ptr rest := rfl

/-- Tags that are not requested are not touched by the subscription loop. -/
lemma subscribe_notin (cfg : Config) (ptr : ℕ) : ∀ (tagIds : List ℕ)
    (ts : List Tag) (u : ℕ), u ∉ tagIds →
    getTag (subscribeEntryToTags cfg ts ptr tagIds) u = getTag ts u := by
  intro tagIds
  induction tagIds with
  | nil => intro ts u _; rfl
  | cons t0 rest ih =>
    intro ts u hu
    have hut : t0 ≠ u := fun h => hu (h ▸ List.mem_cons_self _ _)
    have hur : u ∉ rest := fun h => hu (List.mem_cons_of_mem _ h)
    rw [subscribe_step]
    by_cases hg : (getTag ts t0).handlers.length < cfg.maxTagSubs
    · rw [if_pos hg, ih _ u hur]
      exact getTag_setTagHandlers_ne ts t0 u _ hut
    · rw [if_neg hg]
      exact ih ts u hur

/-- Per-tag effect of the subscription loop on a duplicate-free request:
a full tag is left unchanged, a non-full tag gets the entry appended. -/
lemma subscribe_mem (cfg : Config) (ptr : ℕ) : ∀ (tagIds : List ℕ)
    (ts : List Tag), tagIds.Nodup → (∀ x ∈ tagIds, x < ts.length) →
    ∀ t ∈ tagIds,
      getTag (subscribeEntryToTags cfg ts ptr tagIds) t
        = if (getTag ts t).handlers.length < cfg.maxTagSubs
          then ⟨(getTag ts t).name, (getTag ts t).handlers ++ [ptr]⟩
          else getTag ts t := by
  intro tagIds
  induction tagIds with
  | nil => intro ts _ _ t ht; cases ht
  | cons t0 rest ih =>
    intro ts hnd hb t ht
    have hnd0 : t0 ∉ rest := (List.nodup_cons.mp hnd).1
    have hndr : rest.Nodup := (List.nodup_cons.mp hnd).2
    rw [subscribe_step]
    rcases List.mem_cons.mp ht with hteq | htr
    · subst hteq
      by_cases hg : (getTag ts t).handlers.length < cfg.maxTagSubs
      · rw [if_pos hg, if_pos hg, subscribe_notin cfg ptr rest _ t hnd0]
        exact getTag_setTagHandlers_self ts t _ (hb t (List.mem_cons_self _ _))
      · rw [if_neg hg, if_neg hg, subscribe_notin cfg ptr rest _ t hnd0]
    · have hne : t0 ≠ t := fun h => hnd0 (h ▸ htr)
      by_cases hg : (getTag ts t0).handlers.length < cfg.maxTagSubs
      · rw [if_pos hg]
        have hb2 : ∀ x ∈ rest, x < (setTagHandlers ts t0
            ((getTag ts t0).handlers ++ [ptr])).length := by
          intro x hx
          rw [length_setTagHandlers]
          exact hb x (List.mem_cons_of_mem _ hx)
        rw [ih _ hndr hb2 t htr, getTag_setTagHandlers_ne ts t0 t _ hne]
      · rw [if_neg hg]
        have hb2 : ∀ x ∈ rest, x < ts.length := fun x hx =>
          hb x (List.mem_cons_of_mem _ hx)
        exact ih ts hndr hb2 t htr

/-- A registration with room in the registry takes the success branch. -/
lemma register_success_unfold (cfg : Config) (lvl : LogLevel) (fn ctx : ℕ)
    (tagIds : List ℕ) (nm : Option String) (s : MState)
    (hcap : s.handlerCount < cfg.maxHandlers) :
    registerHandlerForTags cfg lvl fn ctx tagIds nm s
      = (true, ⟨s.handlers.set s.handlerCount
            (HandlerEntry.make cfg.maxTagSubs s.nextHandlerId nm lvl fn ctx tagIds),
          s.handlerCount + 1, (s.nextHandlerId + 1) % 65536,
          subscribeEntryToTags cfg s.tags s.handlerCount tagIds⟩) := by
  have h : ¬(s.handlerCount ≥ cfg.maxHandlers) := not_le.mpr hcap
  simp [registerHandlerForTags, h]

/-- C7.  When some requested topic's subscriber array is already at its
capacity while the registry has room (and the request lists distinct,
existing topics within the per-handler capacity), the registration still
returns success: the record is created and stored, the entry is appended to
every non-full requested topic's subscriber list, the full topic's list is
left exactly unchanged — only that single subscription is dropped — and
topics that were not requested are untouched. -/
theorem c7_full_topic_registration_succeeds (cfg : Config) (s : MState)
    (lvl : LogLevel) (fn ctx : ℕ) (tagIds : List ℕ) (nm : Option String)
    (hlen : s.handlers.length = cfg.maxHandlers)
    (hcap : s.handlerCount < cfg.maxHandlers)
    (hnd : tagIds.Nodup)
    (hb : ∀ x ∈ tagIds, x < s.tags.length)
    (hfull : ∃ x ∈ tagIds, (getTag s.tags x).handlers.length = cfg.maxTagSubs) :
    (registerHandlerForTags cfg lvl fn ctx tagIds nm s).1 = true
    ∧ (registerHandlerForTags cfg lvl fn ctx tagIds nm s).2.handlerCount
        = s.handlerCount + 1
    ∧ getEntry (registerHandlerForTags cfg lvl fn ctx tagIds nm s).2.handlers
          s.handlerCount
        = HandlerEntry.make cfg.maxTagSubs s.nextHandlerId nm lvl fn ctx tagIds
    ∧ (∀ t ∈ tagIds, (getTag s.tags t).handlers.length = cfg.maxTagSubs →
        getTag (registerHandlerForTags cfg lvl fn ctx tagIds nm s).2.tags t
          = getTag s.tags t)
    ∧ (∀ t ∈ tagIds, (getTag s.tags t).handlers.length < cfg.maxTagSubs →
        getTag (registerHandlerForTags cfg lvl fn ctx tagIds nm s).2.tags t
          = ⟨(getTag s.tags t).name,
              (getTag s.tags t).handlers ++ [s.handlerCount]⟩)
    ∧ (∀ u, u ∉ tagIds →
        getTag (registerHandlerForTags cfg lvl fn ctx tagIds nm s).2.tags u
          = getTag s.tags u) := by
  rw [register_success_unfold cfg lvl fn ctx tagIds nm s hcap]
  refine ⟨rfl, rfl, ?_, ?_, ?_, ?_⟩
  · exact getD_set_self_of_lt _ _ _ _ (hlen ▸ hcap)
  · intro t ht hfullt
    have h := subscribe_mem cfg s.handlerCount tagIds s.tags hnd hb t ht
    rw [h, if_neg (by rw [hfullt]; exact lt_irrefl _)]
  · intro t ht hlt
    have h := subscribe_mem cfg s.handlerCount tagIds s.tags hnd hb t ht
    rw [h, if_pos hlt]
  · intro u hu
    exact subscribe_notin cfg s.handlerCount tagIds s.tags u hu

/-- C7 witness: with capacities ⟨2, 1⟩, tag "A" full (one subscriber) and
tag "B" empty, registering a second handler for both tags succeeds, leaves
"A" unchanged and appends to "B". -/
theorem c7_full_topic_registration_succeeds_witness :
    (registerHandlerForTags ⟨2, 1⟩ .TRACE 2 0 [0, 1] none c7WitnessState).1 = true
    ∧ getTag (registerHandlerForTags ⟨2, 1⟩ .TRACE 2 0 [0, 1] none
        c7WitnessState).2.tags 0 = ⟨"A", [0]⟩
    ∧ getTag (registerHandlerForTags ⟨2, 1⟩ .TRACE 2 0 [0, 1] none
        c7WitnessState).2.tags 1 = ⟨"B", [1]⟩ := by
  have h := c7_full_topic_registration_succeeds ⟨2, 1⟩ c7WitnessState .TRACE
    2 0 [0, 1] none (by decide) (by decide) (by decide) (by decide)
    ⟨0, by decide, by decide⟩
  refine ⟨h.1, ?_, ?_⟩
  · have hx := h.2.2.2.1 0 (by decide) (by decide)
    rw [hx]
    decide
  · have hx := h.2.2.2.2.1 1 (by decide) (by decide)
    rw [hx]
    decide

end LogAnywhere
